import Mathlib

/-!
Shallow embedding of the crawl-and-merge core of the `trough` listing
aggregator (Go), together with proofs checking the specification's claims
against it.

Conventions of the embedding:
* timestamps are integers (`Time`); the Go zero `time.Time` is `0`;
* UUIDs are naturals (`UUID`); `uuid.Nil` is `0`; `uuid.New()` values are
  modelled by explicitly supplied nonzero ids (the Go scrapers always
  pre-assign a fresh random UUID, which is never the nil UUID);
* the `listings` table is a `List Listing`; the SQL `ON CONFLICT` clause
  presupposes a unique index on `(source_id, external_id)`, which appears
  as a `Nodup` hypothesis on the list of keys where it matters;
* channels are replaced by the finite list of values a run receives.
-/

namespace Trough

abbrev Time := Int
abbrev UUID := Nat

/-- `uuid.Nil`, the zero UUID. -/
def uuidNil : UUID := 0

/-- `domain.Listing` (internal/domain/listing.go).  Monetary fields are
integer cents wrapped in `Option` (Go `*int64`, nil = not disclosed).
`lat`/`lng` are only ever copied by the core, so their carrier is opaque
and modelled by `Option Int`.  `rawData` is an opaque blob. -/
structure Listing where
  id : UUID
  sourceId : UUID
  externalId : String
  url : String
  title : String
  description : String
  askingPrice : Option Int
  revenue : Option Int
  cashFlow : Option Int
  ebitda : Option Int
  inventory : Option Int
  realEstateIncluded : Bool
  realEstateValue : Option Int
  city : String
  state : String
  zipCode : String
  country : String
  lat : Option Int
  lng : Option Int
  industry : String
  industryCategory : String
  businessType : String
  yearEstablished : Option Int
  employees : Option Int
  reasonForSale : String
  leaseExpiration : Option Time
  monthlyRent : Option Int
  isFranchise : Bool
  franchiseName : String
  rawData : String
  firstSeenAt : Time
  lastSeenAt : Time
  isActive : Bool
  deriving DecidableEq

/-- The natural dedup key `(source_id, external_id)`. -/
def Listing.key (l : Listing) : UUID × String := (l.sourceId, l.externalId)

/-- The `DO UPDATE SET` action of `ListingRepository.Upsert`
(repository, lines 219-248): every listed column is overwritten from the
excluded (incoming) row, `is_active` is forced `true`.  Columns absent
from the SET list — `id`, `source_id`, `external_id`, `country`,
`first_seen_at` — keep the stored row's value. -/
def conflictUpdate (old new : Listing) : Listing :=
  { old with
    url := new.url
    title := new.title
    description := new.description
    askingPrice := new.askingPrice
    revenue := new.revenue
    cashFlow := new.cashFlow
    ebitda := new.ebitda
    inventory := new.inventory
    realEstateIncluded := new.realEstateIncluded
    realEstateValue := new.realEstateValue
    city := new.city
    state := new.state
    zipCode := new.zipCode
    lat := new.lat
    lng := new.lng
    industry := new.industry
    industryCategory := new.industryCategory
    businessType := new.businessType
    yearEstablished := new.yearEstablished
    employees := new.employees
    reasonForSale := new.reasonForSale
    leaseExpiration := new.leaseExpiration
    monthlyRent := new.monthlyRent
    isFranchise := new.isFranchise
    franchiseName := new.franchiseName
    rawData := new.rawData
    lastSeenAt := new.lastSeenAt
    isActive := true }

namespace ListingRepository

/-- `ListingRepository.Upsert` (repository, lines 196-262): a single
atomic `INSERT ... ON CONFLICT (source_id, external_id) DO UPDATE`.
If a row with the same key exists it is updated per `conflictUpdate`,
otherwise the incoming row is inserted as given. -/
def Upsert (store : List Listing) (l : Listing) : List Listing :=
  if store.any (fun r => r.key == l.key) then
    store.map (fun r => if r.key == l.key then conflictUpdate r l else r)
  else
    store ++ [l]

/-- `ListingRepository.MarkStale` (repository, lines 264-273):
`UPDATE listings SET is_active = false WHERE source_id = $1 AND
last_seen_at < $2 AND is_active = true`. -/
def MarkStale (store : List Listing) (sourceID : UUID) (beforeTime : Time) :
    List Listing :=
  store.map (fun r =>
    if r.sourceId = sourceID ∧ r.lastSeenAt < beforeTime ∧ r.isActive = true then
      { r with isActive := false }
    else r)

end ListingRepository

/-- The per-listing preparation inside `Engine.RunSource`'s drain loop
(engine, lines 98-108): stamp the source id and `last_seen_at`; a listing
arriving with the nil UUID gets a fresh synthetic id and
`first_seen_at = now`, any other listing is passed through. -/
def prepareListing (now : Time) (freshId srcId : UUID) (cand : Listing) : Listing :=
  let l := { cand with sourceId := srcId, lastSeenAt := now }
  if l.id = uuidNil then { l with id := freshId, firstSeenAt := now } else l

/-- The shape of a candidate produced by
`BizBuySellScraper.parseListingCard` (bizbuysell.go, lines 185-192):
`ID: uuid.New()` (modelled by a supplied nonzero id), external id, URL,
title, `Country: "US"`, `IsActive: true`; all other fields are the Go
zero values unless a selector matched. -/
def mkCand (id : UUID) (ext title : String) (price : Option Int) : Listing :=
  { id := id
    sourceId := 0
    externalId := ext
    url := "https://www.bizbuysell.com/Business-Opportunity/listing-1.aspx"
    title := title
    description := ""
    askingPrice := price
    revenue := none
    cashFlow := none
    ebitda := none
    inventory := none
    realEstateIncluded := false
    realEstateValue := none
    city := ""
    state := ""
    zipCode := ""
    country := "US"
    lat := none
    lng := none
    industry := ""
    industryCategory := ""
    businessType := ""
    yearEstablished := none
    employees := none
    reasonForSale := ""
    leaseExpiration := none
    monthlyRent := none
    isFranchise := false
    franchiseName := ""
    rawData := ""
    firstSeenAt := 0
    lastSeenAt := 0
    isActive := true }

/-- `domain.ScrapeJob` (domain, scrape job record), restricted to the
fields the engine writes. -/
structure ScrapeJob where
  id : UUID
  sourceId : UUID
  status : String
  listingsFound : Nat := 0
  listingsNew : Nat := 0
  listingsUpdated : Nat := 0
  errorMessage : String := ""
  deriving DecidableEq

def ScrapeJobStatusRunning : String := "running"
def ScrapeJobStatusCompleted : String := "completed"
def ScrapeJobStatusFailed : String := "failed"

/-- One observable event on the two channels drained by
`Engine.RunSource`.  `cancelled` marks the instant the run's context is
cancelled; it is part of the trace so that claims about behaviour after
cancellation can be stated. -/
inductive ChanEvent
  | item (l : Listing)
  | errMsg (e : String)
  | cancelled
  deriving DecidableEq

/-- The mutable state of one `RunSource` drain: the three counters, the
persistent store as mutated by the `Upsert` calls made so far, and the
log lines emitted. -/
structure RunState where
  found : Nat := 0
  new : Nat := 0
  updated : Nat := 0
  store : List Listing
  logs : List String := []
  deriving DecidableEq

/-- The body of `Engine.RunSource`'s drain loop (engine, lines 90-120).
A listing event is stamped via `prepareListing`, classified as new
exactly when its incoming id is the nil UUID, counted, and upserted.
An error event is only logged.  The `select` statement has cases only
for the two channels — there is no `ctx.Done()` case — so a cancellation
instant in the trace leaves the state untouched. -/
def drainLoop (now : Time) (fresh : Nat → UUID) (srcId : UUID) :
    RunState → List ChanEvent → RunState
  | st, [] => st
  | st, ChanEvent.item l :: rest =>
      let p := prepareListing now (fresh st.found) srcId l
      let st :=
        if l.id = uuidNil then
          { st with found := st.found + 1, new := st.new + 1,
                    store := ListingRepository.Upsert st.store p }
        else
          { st with found := st.found + 1, updated := st.updated + 1,
                    store := ListingRepository.Upsert st.store p }
      drainLoop now fresh srcId st rest
  | st, ChanEvent.errMsg e :: rest =>
      drainLoop now fresh srcId
        { st with logs := st.logs ++ ["Scrape error: " ++ e] } rest
  | st, ChanEvent.cancelled :: rest =>
      drainLoop now fresh srcId st rest

/-- The single job update performed after the drain loop exits
(engine, lines 122-133): status becomes `completed` and the three
counters are copied in; the error message is never set on this path. -/
def finalizeJob (job : ScrapeJob) (st : RunState) : ScrapeJob :=
  { job with
    status := ScrapeJobStatusCompleted
    listingsFound := st.found
    listingsNew := st.new
    listingsUpdated := st.updated }

/-! ### Store lemmas shared by the upsert claims -/

theorem key_conflictUpdate (r l : Listing) : (conflictUpdate r l).key = r.key := rfl

theorem filter_key_nil (store : List Listing) (k : UUID × String)
    (h : store.any (fun r => r.key == k) = false) :
    store.filter (fun r => r.key == k) = [] := by
  rw [List.filter_eq_nil_iff]
  intro a ha
  simp only [List.any_eq_false] at h
  exact h a ha

theorem filter_key_singleton (store : List Listing) (k : UUID × String)
    (wf : (store.map Listing.key).Nodup)
    (h : store.any (fun r => r.key == k) = true) :
    ∃ r₀, store.filter (fun r => r.key == k) = [r₀] ∧ r₀.key = k := by
  induction store with
  | nil => simp at h
  | cons r rest ih =>
    rw [List.map_cons, List.nodup_cons] at wf
    by_cases hr : r.key = k
    · refine ⟨r, ?_, hr⟩
      have hrest : rest.any (fun x => x.key == k) = false := by
        rw [List.any_eq_false]
        intro x hx hxk
        rw [beq_iff_eq] at hxk
        exact wf.1 (hr ▸ hxk ▸ List.mem_map_of_mem Listing.key hx)
      rw [List.filter_cons_of_pos (by simpa using hr), filter_key_nil rest k hrest]
    · have hrk : (r.key == k) = false := by simpa using hr
      rw [List.any_cons, hrk, Bool.false_or] at h
      obtain ⟨r₀, h₀, hk₀⟩ := ih wf.2 h
      exact ⟨r₀, by rw [List.filter_cons_of_neg (by simp [hrk]), h₀], hk₀⟩

theorem Upsert_insert (store : List Listing) (p : Listing)
    (h : store.any (fun r => r.key == p.key) = false) :
    ListingRepository.Upsert store p = store ++ [p] := by
  simp [ListingRepository.Upsert, h]

theorem Upsert_filter_update (store : List Listing) (p r₀ : Listing)
    (hmem : store.filter (fun r => r.key == p.key) = [r₀]) :
    (ListingRepository.Upsert store p).filter (fun r => r.key == p.key) =
      [conflictUpdate r₀ p] := by
  have hr₀ : r₀ ∈ store.filter (fun r => r.key == p.key) := by
    rw [hmem]; exact List.mem_singleton.mpr rfl
  obtain ⟨hr₀s, hr₀k⟩ := List.mem_filter.mp hr₀
  have hany : store.any (fun r => r.key == p.key) = true :=
    List.any_eq_true.mpr ⟨r₀, hr₀s, hr₀k⟩
  rw [ListingRepository.Upsert, if_pos hany, List.filter_map]
  have hcongr : store.filter
      ((fun r => r.key == p.key) ∘ fun r => if r.key == p.key then conflictUpdate r p else r) =
      store.filter (fun r => r.key == p.key) := by
    apply List.filter_congr
    intro a _
    by_cases hk : a.key = p.key
    · simp [Function.comp, hk, key_conflictUpdate]
    · simp [Function.comp, hk]
  rw [hcongr, hmem, List.map_singleton, if_pos hr₀k]

theorem conflictUpdate_self (l₁ : Listing) (hact : l₁.isActive = true)
    (i₂ : UUID) (f₂ t₂ : Time) :
    conflictUpdate l₁ { l₁ with id := i₂, firstSeenAt := f₂, lastSeenAt := t₂ } =
      { l₁ with lastSeenAt := t₂ } := by
  cases l₁
  simp_all [conflictUpdate]

theorem conflictUpdate_twice (r₀ l₁ : Listing) (i₂ : UUID) (f₂ t₂ : Time) :
    conflictUpdate (conflictUpdate r₀ l₁)
        { l₁ with id := i₂, firstSeenAt := f₂, lastSeenAt := t₂ } =
      { conflictUpdate r₀ l₁ with lastSeenAt := t₂ } := by
  cases r₀; cases l₁; rfl

/-- C1: for every listing candidate and every prior store state whose keys
are unique, upserting the same `(source_id, external_id)` twice with
identical field values (the second call differing only in the generated
id, `first_seen_at` stamp and an advanced `last_seen_at`) leaves exactly
one stored row for that key; `last_seen_at` is advanced to the second
call's value while the stored synthetic id, `first_seen_at` and every
other field are exactly as after the first call — the second call never
creates a duplicate row. -/
theorem Upsert_idempotent (store : List Listing)
    (wf : (store.map Listing.key).Nodup)
    (l₁ : Listing) (hact : l₁.isActive = true) (i₂ : UUID) (f₂ t₂ : Time) :
    ∃ r : Listing,
      (ListingRepository.Upsert store l₁).filter (fun x => x.key == l₁.key) = [r] ∧
      (ListingRepository.Upsert (ListingRepository.Upsert store l₁)
          { l₁ with id := i₂, firstSeenAt := f₂, lastSeenAt := t₂ }).filter
          (fun x => x.key == l₁.key) = [{ r with lastSeenAt := t₂ }] := by
  by_cases hany : store.any (fun r => r.key == l₁.key) = true
  · obtain ⟨r₀, hr₀, _⟩ := filter_key_singleton store l₁.key wf hany
    have h₁ := Upsert_filter_update store l₁ r₀ hr₀
    refine ⟨conflictUpdate r₀ l₁, h₁, ?_⟩
    have h₂ := Upsert_filter_update (ListingRepository.Upsert store l₁)
      { l₁ with id := i₂, firstSeenAt := f₂, lastSeenAt := t₂ } (conflictUpdate r₀ l₁) h₁
    exact h₂.trans (congrArg (fun z => [z]) (conflictUpdate_twice r₀ l₁ i₂ f₂ t₂))
  · have hfalse : store.any (fun r => r.key == l₁.key) = false := by
      simpa using hany
    have h₁ : (ListingRepository.Upsert store l₁).filter (fun x => x.key == l₁.key) = [l₁] := by
      rw [Upsert_insert store l₁ hfalse, List.filter_append, filter_key_nil store _ hfalse]
      simp
    refine ⟨l₁, h₁, ?_⟩
    have h₂ := Upsert_filter_update (ListingRepository.Upsert store l₁)
      { l₁ with id := i₂, firstSeenAt := f₂, lastSeenAt := t₂ } l₁ h₁
    exact h₂.trans (congrArg (fun z => [z]) (conflictUpdate_self l₁ hact i₂ f₂ t₂))

/-- Witness for `Upsert_idempotent` at a concrete candidate and a
one-row prior store. -/
theorem Upsert_idempotent_witness :
    (([mkCand 3 "9" "Other" none].map Listing.key).Nodup ∧
      (mkCand 7 "1" "Shop A" (some 20000000)).isActive = true) ∧
    ∃ r : Listing,
      (ListingRepository.Upsert [mkCand 3 "9" "Other" none]
          (mkCand 7 "1" "Shop A" (some 20000000))).filter
          (fun x => x.key == (mkCand 7 "1" "Shop A" (some 20000000)).key) = [r] ∧
      (ListingRepository.Upsert
          (ListingRepository.Upsert [mkCand 3 "9" "Other" none]
            (mkCand 7 "1" "Shop A" (some 20000000)))
          { mkCand 7 "1" "Shop A" (some 20000000) with
              id := 8, firstSeenAt := 50, lastSeenAt := 200 }).filter
          (fun x => x.key == (mkCand 7 "1" "Shop A" (some 20000000)).key) =
        [{ r with lastSeenAt := 200 }] :=
  ⟨⟨by decide, by decide⟩,
    Upsert_idempotent [mkCand 3 "9" "Other" none] (by decide)
      (mkCand 7 "1" "Shop A" (some 20000000)) (by decide) 8 50 200⟩

/-- Spec-side description of the stored row after a repeat observation
(for comparison with `conflictUpdate`): all descriptive, financial and
location fields overwritten from the new observation except `country`;
`last_seen_at` refreshed; `is_active` forced `true`; the synthetic id,
`first_seen_at` and `country` kept from the existing row. -/
def specMergedRow (old new : Listing) : Listing :=
  { id := old.id
    sourceId := old.sourceId
    externalId := old.externalId
    url := new.url
    title := new.title
    description := new.description
    askingPrice := new.askingPrice
    revenue := new.revenue
    cashFlow := new.cashFlow
    ebitda := new.ebitda
    inventory := new.inventory
    realEstateIncluded := new.realEstateIncluded
    realEstateValue := new.realEstateValue
    city := new.city
    state := new.state
    zipCode := new.zipCode
    country := old.country
    lat := new.lat
    lng := new.lng
    industry := new.industry
    industryCategory := new.industryCategory
    businessType := new.businessType
    yearEstablished := new.yearEstablished
    employees := new.employees
    reasonForSale := new.reasonForSale
    leaseExpiration := new.leaseExpiration
    monthlyRent := new.monthlyRent
    isFranchise := new.isFranchise
    franchiseName := new.franchiseName
    rawData := new.rawData
    firstSeenAt := old.firstSeenAt
    lastSeenAt := new.lastSeenAt
    isActive := true }

/-- C2 counterexample: a candidate that arrives (as all the repository's
scrapers produce it) with a pre-assigned nonzero id and `country = "US"`
is first observed at time 100: the inserted row keeps the candidate's
zero `first_seen_at` instead of 100.  Re-observed at time 200 with
`country = "CA"`, the stored row still says `"US"`: the `ON CONFLICT`
update does not overwrite `country`. -/
theorem Upsert_merge_policy_cex :
    (ListingRepository.Upsert []
        (prepareListing 100 42 1 (mkCand 7 "1" "Shop A" none))).map
        Listing.firstSeenAt = [0] ∧
    (0 : Time) ≠ 100 ∧
    (ListingRepository.Upsert
        (ListingRepository.Upsert []
          (prepareListing 100 42 1 (mkCand 7 "1" "Shop A" none)))
        (prepareListing 200 43 1
          { mkCand 7 "1" "Shop A" none with country := "CA" })).map
        Listing.country = ["US"] ∧
    ("US" : String) ≠ "CA" := by
  refine ⟨by decide, by decide, ?_, by decide⟩
  decide

/-- C2 (amended): the merge step behaves as an upsert keyed on
`(source_id, external_id)`: the engine stamps `last_seen_at = now` and
assigns a fresh id and `first_seen_at = now` only when the candidate
arrives with the nil id (a candidate with a pre-assigned id keeps its own
`first_seen_at` field); on first observation the prepared row is inserted
as is; on every subsequent observation all descriptive, financial and
location fields except `country` are overwritten with the latest values,
`last_seen_at` is refreshed, `is_active` is forced `true`, and the
synthetic id, `first_seen_at` and `country` keep their stored values. -/
theorem Upsert_merge_policy (now : Time) (freshId srcId : UUID) (cand : Listing)
    (store : List Listing) :
    (prepareListing now freshId srcId cand).lastSeenAt = now ∧
    (cand.id = uuidNil →
      (prepareListing now freshId srcId cand).id = freshId ∧
      (prepareListing now freshId srcId cand).firstSeenAt = now) ∧
    (cand.id ≠ uuidNil →
      (prepareListing now freshId srcId cand).id = cand.id ∧
      (prepareListing now freshId srcId cand).firstSeenAt = cand.firstSeenAt) ∧
    (store.any (fun r => r.key == (prepareListing now freshId srcId cand).key) = false →
      ListingRepository.Upsert store (prepareListing now freshId srcId cand) =
        store ++ [prepareListing now freshId srcId cand]) ∧
    (∀ r₀, store.filter
        (fun r => r.key == (prepareListing now freshId srcId cand).key) = [r₀] →
      (ListingRepository.Upsert store
          (prepareListing now freshId srcId cand)).filter
          (fun r => r.key == (prepareListing now freshId srcId cand).key) =
        [specMergedRow r₀ (prepareListing now freshId srcId cand)]) := by
  refine ⟨?_, ?_, ?_, ?_, ?_⟩
  · by_cases h : cand.id = uuidNil <;> simp [prepareListing, h]
  · intro h; simp [prepareListing, h]
  · intro h; simp [prepareListing, h]
  · intro h; exact Upsert_insert store _ h
  · intro r₀ h₀
    have h := Upsert_filter_update store (prepareListing now freshId srcId cand) r₀ h₀
    have hspec : conflictUpdate r₀ (prepareListing now freshId srcId cand) =
        specMergedRow r₀ (prepareListing now freshId srcId cand) := by
      cases r₀; rfl
    rw [h, hspec]

/-- Witness for `Upsert_merge_policy`: a repeat observation of a stored
row under key `(1, "1")`. -/
theorem Upsert_merge_policy_witness :
    ((ListingRepository.Upsert []
        (prepareListing 100 42 1 (mkCand 7 "1" "Shop A" none))).filter
        (fun r => r.key == (prepareListing 200 43 1
          { mkCand 7 "1" "Shop A" none with country := "CA" }).key) =
      [prepareListing 100 42 1 (mkCand 7 "1" "Shop A" none)]) ∧
    (ListingRepository.Upsert
        (ListingRepository.Upsert []
          (prepareListing 100 42 1 (mkCand 7 "1" "Shop A" none)))
        (prepareListing 200 43 1
          { mkCand 7 "1" "Shop A" none with country := "CA" })).filter
        (fun r => r.key == (prepareListing 200 43 1
          { mkCand 7 "1" "Shop A" none with country := "CA" }).key) =
      [specMergedRow (prepareListing 100 42 1 (mkCand 7 "1" "Shop A" none))
        (prepareListing 200 43 1
          { mkCand 7 "1" "Shop A" none with country := "CA" })] :=
  ⟨by decide,
    (Upsert_merge_policy 200 43 1
        { mkCand 7 "1" "Shop A" none with country := "CA" }
        (ListingRepository.Upsert []
          (prepareListing 100 42 1 (mkCand 7 "1" "Shop A" none)))).2.2.2.2
      (prepareListing 100 42 1 (mkCand 7 "1" "Shop A" none)) (by decide)⟩

theorem set_inactive_eq_self (r : Listing) (h : r.isActive = false) :
    { r with isActive := false } = r := by
  cases r
  simp_all

/-- C8: the staleness sweep never deletes a row, and pointwise it turns a
row inactive exactly when it belongs to the swept source and its
`last_seen_at` is older than the cutoff; every other row is returned
entirely unchanged. -/
theorem MarkStale_frame_spec (store : List Listing) (src : UUID) (cutoff : Time)
    (i : Nat) :
    (ListingRepository.MarkStale store src cutoff).length = store.length ∧
    (ListingRepository.MarkStale store src cutoff)[i]? =
      (store[i]?).map (fun r =>
        if r.sourceId = src ∧ r.lastSeenAt < cutoff then
          { r with isActive := false }
        else r) := by
  constructor
  · exact List.length_map _ _
  · rw [ListingRepository.MarkStale, List.getElem?_map]
    cases hr : store[i]? with
    | none => rfl
    | some r =>
      first
      | simp only [Option.map_some]
      | simp only [Option.map_some']
      congr 1
      by_cases h1 : r.sourceId = src ∧ r.lastSeenAt < cutoff
      · rw [if_pos h1]
        by_cases h2 : r.isActive = true
        · rw [if_pos ⟨h1.1, h1.2, h2⟩]
        · rw [if_neg (by simp [h1.1, h1.2, h2]),
            set_inactive_eq_self r (by simpa using h2)]
      · rw [if_neg h1, if_neg (by
          rintro ⟨ha, hb, -⟩
          exact h1 ⟨ha, hb⟩)]

/-- C3: evaluation of the engine's drain loop at the failing input.
A first run over a scraper yielding two fresh records — both carrying the
nonzero ids that `parseListingCard` always pre-assigns via `uuid.New()` —
finalizes the job with `found = 2` but `new = 0` and `updated = 2`:
the `listing.ID == uuid.Nil` check never fires, so no record is ever
counted as new, contradicting the intended new-vs-updated
classification (and the spec scenario `found=2, new=2, updated=0`). -/
theorem RunSource_new_counter_bug :
    finalizeJob { id := 1, sourceId := 5, status := ScrapeJobStatusRunning }
        (drainLoop 100 (fun n => 1000 + n) 5 { store := [] }
          [ChanEvent.item (mkCand 7 "1" "Shop A" (some 20000000)),
           ChanEvent.item (mkCand 9 "2" "Shop B" none)]) =
      { id := 1, sourceId := 5, status := ScrapeJobStatusCompleted,
        listingsFound := 2, listingsNew := 0, listingsUpdated := 2,
        errorMessage := "" } ∧
    (drainLoop 100 (fun n => 1000 + n) 5 { store := [] }
        [ChanEvent.item (mkCand 7 "1" "Shop A" (some 20000000)),
         ChanEvent.item (mkCand 9 "2" "Shop B" none)]).store.map
        Listing.firstSeenAt = [0, 0] := by
  refine ⟨by decide, by decide⟩

/-- C4 counterexample: a run whose scrape could not start (the colly
entry-page visit failed, so the producer emitted one fatal error and zero
listings before closing both channels) still finalizes its ScrapeJob as
`completed` with zero counters — never as `failed`, and the error message
stays empty.  This contradicts the claim that such a run is finalized to
`failed` with the terminal error. -/
theorem RunSource_completed_on_failed_start_cex :
    finalizeJob { id := 9, sourceId := 1, status := ScrapeJobStatusRunning }
        (drainLoop 100 (fun _ => 0) 1 { store := [] }
          [ChanEvent.errMsg "failed to start scrape: unreachable"]) =
      { id := 9, sourceId := 1, status := ScrapeJobStatusCompleted,
        listingsFound := 0, listingsNew := 0, listingsUpdated := 0,
        errorMessage := "" } ∧
    ScrapeJobStatusCompleted ≠ ScrapeJobStatusFailed := by
  refine ⟨by decide, by decide⟩

/-- C4 (amended): every run of `Engine.RunSource` that creates a
ScrapeJob record finalizes it exactly once, always to `completed` with
its found/new/updated counters and an empty error message — even when
the scrape itself could not start and only emitted errors; scrape errors
are logged but never turn the job record to `failed` on this path. -/
theorem RunSource_always_finalizes_completed (now : Time) (fresh : Nat → UUID)
    (jobId srcId : UUID) (store : List Listing) (events : List ChanEvent) :
    (finalizeJob { id := jobId, sourceId := srcId, status := ScrapeJobStatusRunning }
        (drainLoop now fresh srcId { store := store } events)).status =
      ScrapeJobStatusCompleted ∧
    (finalizeJob { id := jobId, sourceId := srcId, status := ScrapeJobStatusRunning }
        (drainLoop now fresh srcId { store := store } events)).errorMessage = "" ∧
    (finalizeJob { id := jobId, sourceId := srcId, status := ScrapeJobStatusRunning }
        (drainLoop now fresh srcId { store := store } events)).listingsFound =
      (drainLoop now fresh srcId { store := store } events).found ∧
    (finalizeJob { id := jobId, sourceId := srcId, status := ScrapeJobStatusRunning }
        (drainLoop now fresh srcId { store := store } events)).listingsNew =
      (drainLoop now fresh srcId { store := store } events).new ∧
    (finalizeJob { id := jobId, sourceId := srcId, status := ScrapeJobStatusRunning }
        (drainLoop now fresh srcId { store := store } events)).listingsUpdated =
      (drainLoop now fresh srcId { store := store } events).updated :=
  ⟨rfl, rfl, rfl, rfl, rfl⟩

/-- C7 counterexample: the run's context is cancelled while two listings
are still buffered on the stream; the engine's drain loop, having no
`ctx.Done()` case, still performs an Upsert for each of them — two
persistence calls happen after cancellation is observed, contradicting
the claim that none occur. -/
theorem drainLoop_upserts_after_cancel_cex :
    (drainLoop 100 (fun n => 1000 + n) 5 { store := [] }
        [ChanEvent.cancelled,
         ChanEvent.item (mkCand 7 "1" "Shop A" (some 20000000)),
         ChanEvent.item (mkCand 9 "2" "Shop B" none)]).store.length = 2 ∧
    (2 : Nat) ≠ 0 := by
  refine ⟨by decide, by decide⟩

/-- C7 (amended): the engine's drain loop is insensitive to the
cancellation instant: a trace with the cancellation event inserted at any
point produces exactly the same counters, store mutations (Upsert calls)
and logs as the trace without it — the engine keeps draining and
persisting already-buffered listings after cancellation, until the
producer closes the streams. -/
theorem drainLoop_cancel_noninterference (now : Time) (fresh : Nat → UUID)
    (srcId : UUID) (st : RunState) (es₁ es₂ : List ChanEvent) :
    drainLoop now fresh srcId st (es₁ ++ ChanEvent.cancelled :: es₂) =
      drainLoop now fresh srcId st (es₁ ++ es₂) := by
  induction es₁ generalizing st with
  | nil => rfl
  | cons e rest ih =>
    cases e with
    | item l => simp only [List.cons_append, drainLoop]; exact ih _
    | errMsg m => simp only [List.cons_append, drainLoop]; exact ih _
    | cancelled => simp only [List.cons_append, drainLoop]; exact ih _

/-! ### Monetary text parsing (`parsePrice`, bizbuysell.go lines 332-379)

The Go string operations are modelled on `List Char`; all inputs in the
claims are ASCII, where Go's Unicode-aware lowering/trimming coincides
with the ASCII versions used here.  Go's `float64` arithmetic is modelled
by exact rationals; on the magnitudes involved the float computation is
exact, and `int64(x)` truncation toward zero is integer division of the
rational. -/

/-- `unicode.IsSpace` restricted to ASCII (all relevant inputs are
ASCII). -/
def isSpaceChar (c : Char) : Bool :=
  c = ' ' ∨ c = '\t' ∨ c = '\n' ∨ c = '\x0b' ∨ c = '\x0c' ∨ c = '\r'

/-- `strings.TrimSpace`. -/
def trimChars (cs : List Char) : List Char :=
  ((cs.dropWhile isSpaceChar).reverse.dropWhile isSpaceChar).reverse

/-- `strings.Contains` for a non-empty ASCII pattern. -/
def containsSeq (pat : List Char) : List Char → Bool
  | [] => pat.isEmpty
  | c :: rest => pat.isPrefixOf (c :: rest) || containsSeq pat rest

/-- Fuelled core of `strings.ReplaceAll`; the fuel is the input length,
which suffices because every step consumes at least one character. -/
def replaceSeqFuel (pat repl : List Char) : Nat → List Char → List Char
  | 0, cs => cs
  | _ + 1, [] => []
  | fuel + 1, c :: rest =>
      if pat.isPrefixOf (c :: rest) ∧ pat ≠ [] then
        repl ++ replaceSeqFuel pat repl fuel (rest.drop (pat.length - 1))
      else
        c :: replaceSeqFuel pat repl fuel rest

/-- `strings.ReplaceAll` for a non-empty pattern. -/
def replaceSeq (pat repl cs : List Char) : List Char :=
  replaceSeqFuel pat repl cs.length cs

/-- Characters matched by the Go regex `[\d.]+`. -/
def isNumChar (c : Char) : Bool := c.isDigit || c = '.'

/-- `regexp.MustCompile('[\d.]+').FindString`: the leftmost maximal run
of digits and dots, if any. -/
def findNumRun : List Char → Option (List Char)
  | [] => none
  | c :: rest =>
      if isNumChar c then some (c :: rest.takeWhile isNumChar)
      else findNumRun rest

/-- Split a run of digits/dots at the dots. -/
def splitDots (cs : List Char) : List (List Char) :=
  cs.foldr
    (fun c acc =>
      if c = '.' then [] :: acc
      else
        match acc with
        | [] => [[c]]
        | g :: gs => (c :: g) :: gs)
    [[]]

def digitsVal (cs : List Char) : Nat :=
  cs.foldl (fun a c => a * 10 + (c.toNat - Char.toNat '0')) 0

/-- `strconv.ParseFloat` on a string of digits and dots, as an exact
nonnegative fraction `(numerator, denominator)` with the denominator a
power of ten; `none` on the inputs Go rejects (only dots, or several
dots).  The matched run never contains a sign, so the value is always
nonnegative. -/
def parseFloatDec (cs : List Char) : Option (Nat × Nat) :=
  match splitDots cs with
  | [intPart] => if intPart = [] then none else some (digitsVal intPart, 1)
  | [intPart, fracPart] =>
      if intPart = [] ∧ fracPart = [] then none
      else some (digitsVal intPart * 10 ^ fracPart.length + digitsVal fracPart,
        10 ^ fracPart.length)
  | _ => none

/-- `parsePrice` (bizbuysell.go, lines 332-379): lowercase; strip `$`,
commas and the labels `asking price`, `cash flow`, `revenue`; trim; on a
range take the text before the first `-` and trim it; treat
`disclosed`/`call`/`contact`/`n/a` as no value (0); otherwise parse the
first `[\d.]+` run as a float, apply the m/k suffix multiplier found in
the remaining text, and convert dollars to integer cents. -/
def parsePrice (text : String) : Int :=
  if text = "" then 0
  else
    let t := text.data.map Char.toLower
    let t := replaceSeq "$".data [] t
    let t := replaceSeq ",".data [] t
    let t := replaceSeq "asking price".data [] t
    let t := replaceSeq "cash flow".data [] t
    let t := replaceSeq "revenue".data [] t
    let t := trimChars t
    let t := if containsSeq "-".data t then
        trimChars (t.takeWhile (fun c => c ≠ '-'))
      else t
    if containsSeq "disclosed".data t || containsSeq "call".data t ||
        containsSeq "contact".data t || containsSeq "n/a".data t then 0
    else
      match findNumRun t with
      | none => 0
      | some run =>
          match parseFloatDec run with
          | none => 0
          | some v =>
              let n := if containsSeq "m".data t || containsSeq "mil".data t then
                  v.1 * 1000000
                else if containsSeq "k".data t then v.1 * 1000
                else v.1
              -- int64(val * 100): exact-fraction truncation toward zero
              (((n * 100) / v.2 : Nat) : Int)

/-- The call-site guard in `parseListingCard` (bizbuysell.go lines
200-204): the listing-level field is set only when the parsed price is
strictly positive; otherwise the field stays nil. -/
def priceFieldOf (text : String) : Option Int :=
  let price := parsePrice text
  if price > 0 then some price else none

/-- C5: the monetary parser satisfies the four reference vectors:
`"$1,250,000"` parses to 125000000 cents; `"Call for price"` produces no
listing-level value (the guard leaves the optional field nil — neither
zero-valued nor an error); `"$500K"` parses to 50000000 via the `k`
multiplier; `"$1M - $2M"` parses to the range's lower bound 100000000
via the `m` multiplier. -/
theorem parsePrice_vectors :
    parsePrice "$1,250,000" = 125000000 ∧
    priceFieldOf "Call for price" = none ∧
    parsePrice "$500K" = 50000000 ∧
    parsePrice "$1M - $2M" = 100000000 := by
  refine ⟨by decide, by decide, by decide, by decide⟩

/-! ### The browser-variant page loop (`BizBuySellRodScraper.Scrape`,
bizbuysell_rod.go lines 43-155)

The site is modelled as the list of non-empty result pages it serves in
order; each page is the list of candidate listings parsed from it.
Navigation, block detection and delays are collapsed into fetching the
next page of that list. -/

/-- The per-page emission loop (bizbuysell_rod.go lines 129-143): for
each parsed listing, if the cap is set and already reached the goroutine
returns (third component `true`); otherwise the listing is sent and the
count incremented.  Returns the emitted listings, the final count and
whether the cap-return fired. -/
def emitFrom (maxL : Nat) : Nat → List Listing → List Listing × Nat × Bool
  | count, [] => ([], count, false)
  | count, l :: ls =>
      if 0 < maxL ∧ maxL ≤ count then ([], count, true)
      else
        let r := emitFrom maxL (count + 1) ls
        (l :: r.1, r.2)

/-- The page loop (bizbuysell_rod.go lines 67-149) over the at most
`maxPages` pages the loop condition allows: each iteration fetches one
page; an empty page breaks the loop; a cap-return ends the run;
otherwise the loop continues with the next page.  Returns the emitted
listings and the number of pages fetched. -/
def rodCrawl (maxL : Nat) : Nat → List (List Listing) → List Listing × Nat
  | _, [] => ([], 0)
  | count, pg :: rest =>
      if pg.length = 0 then ([], 1)
      else
        let e := emitFrom maxL count pg
        if e.2.2 then (e.1, 1)
        else
          let r := rodCrawl maxL e.2.1 rest
          (e.1 ++ r.1, r.2 + 1)

/-- `BizBuySellRodScraper.Scrape` (bizbuysell_rod.go lines 58-149):
`maxPages = maxListings/20 + 1` when a cap is set, else 50; the `for
pageNum <= maxPages` loop visits at most that many pages of the site. -/
def rodScrape (maxL : Nat) (pages : List (List Listing)) : List Listing × Nat :=
  let maxPages := if 0 < maxL then maxL / 20 + 1 else 50
  rodCrawl maxL 0 (pages.take maxPages)

theorem emitFrom_count (maxL : Nat) (pg : List Listing) (count : Nat) :
    (emitFrom maxL count pg).2.1 = count + (emitFrom maxL count pg).1.length := by
  induction pg generalizing count with
  | nil => simp [emitFrom]
  | cons l ls ih =>
    by_cases h : 0 < maxL ∧ maxL ≤ count
    · simp [emitFrom, h]
    · simp only [emitFrom, if_neg h, List.length_cons]
      rw [ih (count + 1)]
      omega

theorem emitFrom_le (maxL : Nat) (pg : List Listing) (count : Nat)
    (hm : 0 < maxL) (hc : count ≤ maxL) :
    (emitFrom maxL count pg).2.1 ≤ maxL := by
  induction pg generalizing count with
  | nil => simpa [emitFrom] using hc
  | cons l ls ih =>
    by_cases h : 0 < maxL ∧ maxL ≤ count
    · simpa [emitFrom, h] using hc
    · simp only [emitFrom, if_neg h]
      exact ih (count + 1) (by omega)

theorem rodCrawl_le (maxL : Nat) (ps : List (List Listing)) (count : Nat)
    (hm : 0 < maxL) (hc : count ≤ maxL) :
    count + (rodCrawl maxL count ps).1.length ≤ maxL ∧
    (rodCrawl maxL count ps).2 ≤ ps.length := by
  induction ps generalizing count with
  | nil => simpa [rodCrawl] using hc
  | cons pg rest ih =>
    by_cases hpg : pg.length = 0
    · simp [rodCrawl, hpg]; omega
    · have hcount := emitFrom_count maxL pg count
      have hle := emitFrom_le maxL pg count hm hc
      by_cases hcap : (emitFrom maxL count pg).2.2 = true
      · simp only [rodCrawl, if_neg hpg, if_pos hcap, List.length_cons]
        exact ⟨by omega, by omega⟩
      · have hrest := ih (emitFrom maxL count pg).2.1 (by omega)
        simp only [rodCrawl, if_neg hpg, if_neg hcap, List.length_append,
          List.length_cons]
        exact ⟨by omega, by omega⟩

/-- C6 counterexample: with `max_listings = 25` the derived page budget
is `25/20 + 1 = 2`, so over a site whose pages hold 10 candidates each
(30 pages, 300 candidates in total — more than the cap) the run emits
only 20 listings, not `min 25 300 = 25`. -/
theorem rodScrape_undershoots_cap_cex :
    (rodScrape 25 (List.replicate 30
        (List.replicate 10 (mkCand 7 "1" "Shop A" none)))).1.length = 20 ∧
    ((List.replicate 30 (List.replicate 10 (mkCand 7 "1" "Shop A" none))).map
        List.length).sum = 300 ∧
    (20 : Nat) ≠ min 25 300 := by
  refine ⟨by decide, by decide, by decide⟩

/-- C6 (amended): with a positive cap `N`, at most `N` listings are ever
emitted — the per-listing guard halts the run as soon as the cap is
reached — and page traversal is bounded by the derived budget
`N/20 + 1` pages, so the cap also halts page traversal; but when pages
hold fewer than 20 candidates the page budget can end the run before
`min(N, total available)` listings have been emitted. -/
theorem rodScrape_cap_bounds (maxL : Nat) (hm : 0 < maxL)
    (pages : List (List Listing)) :
    (rodScrape maxL pages).1.length ≤ maxL ∧
    (rodScrape maxL pages).2 ≤ maxL / 20 + 1 := by
  have hif : (if 0 < maxL then maxL / 20 + 1 else 50) = maxL / 20 + 1 := if_pos hm
  have he : rodScrape maxL pages = rodCrawl maxL 0 (pages.take (maxL / 20 + 1)) := by
    simp only [rodScrape, hif]
  have h := rodCrawl_le maxL (pages.take (maxL / 20 + 1)) 0 hm (Nat.zero_le maxL)
  have h3 : (pages.take (maxL / 20 + 1)).length ≤ maxL / 20 + 1 :=
    List.length_take_le _ _
  rw [he]
  exact ⟨by omega, by omega⟩

/-- Witness for `rodScrape_cap_bounds` at the concrete 30-page site. -/
theorem rodScrape_cap_bounds_witness :
    0 < 25 ∧
    (rodScrape 25 (List.replicate 30
        (List.replicate 10 (mkCand 7 "1" "Shop A" none)))).1.length ≤ 25 ∧
    (rodScrape 25 (List.replicate 30
        (List.replicate 10 (mkCand 7 "1" "Shop A" none)))).2 ≤ 25 / 20 + 1 :=
  ⟨by decide,
    rodScrape_cap_bounds 25 (by decide)
      (List.replicate 30 (List.replicate 10 (mkCand 7 "1" "Shop A" none)))⟩

/-! ### On-demand trigger rate limiting
(`RateLimiter.Allow`, internal/api/middleware/ratelimit.go lines 37-65;
`SourceHandler.TriggerRefresh`, internal/api/handlers/sources.go lines
67-95).  Time is in seconds, so `time.Hour` is 3600. -/

/-- The limiter's `requests` map: per caller key, the recorded request
times (a missing key reads as the empty list, like a nil Go slice). -/
def RateState := String → List Time

def emptyRateState : RateState := fun _ => []

/-- `RateLimiter.Allow`: keep only the recorded times strictly inside
the window ending now (`t.After(windowStart)`); reject when at least
`limit` remain, and record `now` only on acceptance. -/
def Allow (limit : Nat) (window : Time) (st : RateState) (key : String)
    (now : Time) : Bool × RateState :=
  let valid := (st key).filter (fun t => now - window < t)
  if limit ≤ valid.length then
    (false, fun k => if k = key then valid else st k)
  else
    (true, fun k => if k = key then valid ++ [now] else st k)

/-- A sequence of `Allow` calls: final state plus the per-call decision
log. -/
def runRL (limit : Nat) (window : Time) :
    RateState → List (String × Time) → RateState × List ((String × Time) × Bool)
  | st, [] => (st, [])
  | st, (k, t) :: rest =>
      let a := Allow limit window st k t
      let o := runRL limit window a.2 rest
      (o.1, ((k, t), a.1) :: o.2)

/-- The accepted request times of one caller, read off a decision log. -/
def acceptedTimes (log : List ((String × Time) × Bool)) (key : String) :
    List Time :=
  (log.filter (fun e => e.2 && e.1.1 == key)).map (fun e => e.1.2)

/-- The limiter's window filter at a given instant. -/
def windowFilter (window now : Time) (ts : List Time) : List Time :=
  ts.filter (fun t => now - window < t)

/-- An HTTP response as far as the claims observe it. -/
structure HttpResponse where
  status : Nat
  retryAfter : Option String
  body : String
  deriving DecidableEq

inductive QueuedJob
  | scrapeAll
  | scrapeOne (slug : String) (fullScrape : Bool)
  deriving DecidableEq

/-- `handlers.TooManyRequests` (metrics.go lines 280-285, via `Error`
and `JSON`): writes status 429 with the message body; no `Retry-After`
header is set on this path. -/
def TooManyRequests (message : String) : HttpResponse :=
  { status := 429
    retryAfter := none
    body := if message = "" then "Too many requests" else message }

/-- `SourceHandler.TriggerRefresh` (sources.go lines 67-95): the handler
holds a limiter built with `NewRateLimiter(1, time.Hour)` keyed by the
caller's address; a rejected call answers 429 with a try-later message
and queues nothing; an accepted call queues the scrape-all job, or a
single-source job with `FullScrape: false`, and answers 202. -/
def TriggerRefresh (st : RateState) (clientIP : String) (now : Time)
    (sourceSlug : String) : HttpResponse × RateState × List QueuedJob :=
  let a := Allow 1 3600 st clientIP now
  if a.1 = false then
    (TooManyRequests "Refresh is limited to once per hour. Please try again later.",
      a.2, [])
  else
    let job := if sourceSlug = "" then QueuedJob.scrapeAll
      else QueuedJob.scrapeOne sourceSlug false
    ({ status := 202, retryAfter := none,
        body := if sourceSlug = "" then "Refresh job queued for all sources"
          else "Refresh job queued for " ++ sourceSlug },
      a.2, [job])

theorem windowFilter_windowFilter (window t₀ n : Int) (h : t₀ ≤ n)
    (ts : List Int) :
    windowFilter window n (windowFilter window t₀ ts) =
      windowFilter window n ts := by
  unfold windowFilter
  rw [List.filter_filter]
  apply List.filter_congr
  intro a _
  by_cases h1 : n - window < a
  · by_cases h2 : t₀ - window < a
    · simp [h1, h2]
    · omega
  · simp [h1]

/-- Core invariant: starting from a state whose window view agrees with
an abstract record `acc` of previously accepted times, after any
time-ordered trace the limiter state's window view agrees with `acc`
extended by the times the run accepted. -/
theorem runRL_agree (limit : Nat) (window : Time) (trace : List (String × Time)) :
    ∀ (st acc : RateState) (b : Time),
      (∀ p ∈ trace, b ≤ p.2) →
      List.Pairwise (fun p q : String × Time => p.2 ≤ q.2) trace →
      (∀ key n, b ≤ n → windowFilter window n (st key) = windowFilter window n (acc key)) →
      ∀ key n, b ≤ n → (∀ p ∈ trace, p.2 ≤ n) →
        windowFilter window n ((runRL limit window st trace).1 key) =
          windowFilter window n
            (acc key ++ acceptedTimes (runRL limit window st trace).2 key) := by
  induction trace with
  | nil =>
    intro st acc b _ _ hinv key n hbn _
    simpa [runRL, acceptedTimes] using hinv key n hbn
  | cons p rest ih =>
    obtain ⟨k₀, t₀⟩ := p
    intro st acc b hb hpw hinv key n hbn hln
    have hbt₀ : b ≤ t₀ := hb _ (List.mem_cons_self _ _)
    have hbrest : ∀ q ∈ rest, t₀ ≤ q.2 := by
      intro q hq
      exact (List.pairwise_cons.mp hpw).1 q hq
    have hrest_pw := (List.pairwise_cons.mp hpw).2
    have ht₀n : t₀ ≤ n := hln _ (List.mem_cons_self _ _)
    have hlnrest : ∀ p ∈ rest, p.2 ≤ n := fun q hq => hln q (List.mem_cons_of_mem _ hq)
    -- the one-step Allow update
    set a := Allow limit window st k₀ t₀ with ha
    have hstep : ∀ key2 n2, t₀ ≤ n2 →
        windowFilter window n2 (a.2 key2) =
          windowFilter window n2
            (acc key2 ++ (if a.1 && (k₀ == key2) then [t₀] else [])) := by
      intro key2 n2 ht₀n2
      have hbn2 : b ≤ n2 := le_trans hbt₀ ht₀n2
      by_cases hkey : key2 = k₀
      · subst hkey
        by_cases hdec : limit ≤ ((st key2).filter (fun t => t₀ - window < t)).length
        · have ha1 : a.1 = false := by simp [ha, Allow, hdec]
          have ha2 : a.2 key2 = (st key2).filter (fun t => t₀ - window < t) := by
            simp [ha, Allow, hdec]
          rw [ha2, ha1]
          simp only [Bool.false_and, if_neg (by simp : ¬(false = true)), List.append_nil]
          calc windowFilter window n2 ((st key2).filter (fun t => t₀ - window < t))
              = windowFilter window n2 (windowFilter window t₀ (st key2)) := rfl
            _ = windowFilter window n2 (st key2) :=
                windowFilter_windowFilter window t₀ n2 ht₀n2 _
            _ = windowFilter window n2 (acc key2) := hinv key2 n2 hbn2
        · have ha1 : a.1 = true := by simp [ha, Allow, hdec]
          have ha2 : a.2 key2 = (st key2).filter (fun t => t₀ - window < t) ++ [t₀] := by
            simp [ha, Allow, hdec]
          rw [ha2, ha1]
          simp only [Bool.true_and, beq_self_eq_true, if_pos rfl]
          unfold windowFilter
          rw [List.filter_append, List.filter_append]
          congr 1
          calc ((st key2).filter (fun t => t₀ - window < t)).filter (fun t => decide (n2 - window < t))
              = windowFilter window n2 (windowFilter window t₀ (st key2)) := rfl
            _ = windowFilter window n2 (st key2) :=
                windowFilter_windowFilter window t₀ n2 ht₀n2 _
            _ = (acc key2).filter (fun t => decide (n2 - window < t)) := hinv key2 n2 hbn2
      · have hne : (k₀ == key2) = false := by
          simp [beq_eq_false_iff_ne]
          exact fun h => hkey h.symm
        have ha2 : a.2 key2 = st key2 := by
          by_cases hdec : limit ≤ ((st k₀).filter (fun t => t₀ - window < t)).length <;>
            simp [ha, Allow, hdec, fun h => hkey h]
        rw [ha2, hne]
        simp only [Bool.and_false, if_neg (by simp : ¬(false = true)), List.append_nil]
        exact hinv key2 n2 hbn2
    have hmain := ih a.2
      (fun k => acc k ++ (if a.1 && (k₀ == k) then [t₀] else []))
      t₀ hbrest hrest_pw hstep key n ht₀n hlnrest
    -- massage the accepted-times bookkeeping
    have hlog : acceptedTimes (runRL limit window st ((k₀, t₀) :: rest)).2 key =
        (if a.1 && (k₀ == key) then [t₀] else []) ++
          acceptedTimes (runRL limit window a.2 rest).2 key := by
      simp only [runRL, acceptedTimes, ← ha]
      by_cases hcond : (a.1 && (k₀ == key)) = true
      · rw [List.filter_cons_of_pos (by simpa using hcond), if_pos hcond]
        rfl
      · rw [List.filter_cons_of_neg (by simpa using hcond), if_neg hcond]
        rfl
    have hstate : (runRL limit window st ((k₀, t₀) :: rest)).1 =
        (runRL limit window a.2 rest).1 := by
      simp [runRL, ← ha]
    rw [hstate, hlog, ← List.append_assoc]
    exact hmain

/-- Specialization to the handler's limiter started empty. -/
theorem runRL_empty_agree (limit : Nat) (window : Time)
    (trace : List (String × Time))
    (hpw : List.Pairwise (fun p q : String × Time => p.2 ≤ q.2) trace)
    (key : String) (n : Time) (hln : ∀ p ∈ trace, p.2 ≤ n) :
    windowFilter window n ((runRL limit window emptyRateState trace).1 key) =
      windowFilter window n
        (acceptedTimes (runRL limit window emptyRateState trace).2 key) := by
  cases trace with
  | nil => simp [runRL, acceptedTimes, windowFilter, emptyRateState]
  | cons p rest =>
    have h := runRL_agree limit window (p :: rest) emptyRateState emptyRateState p.2
      (fun q hq => by
        rcases List.mem_cons.mp hq with h | h
        · exact le_of_eq (by rw [h])
        · exact (List.pairwise_cons.mp hpw).1 q h)
      hpw
      (fun k m _ => rfl)
      key n (hln p (List.mem_cons_self _ _)) hln
    simpa [emptyRateState] using h

/-- C9 counterexample: a caller whose first trigger (time 0) was
accepted calls again at time 100, inside the one-hour window.  The
handler answers 429, but with no `Retry-After` header: the rejection
path goes through `handlers.TooManyRequests`, which only writes the
JSON try-later message — the claim's "429 with Retry-After" does not
hold. -/
theorem TriggerRefresh_no_retryAfter_cex :
    (TriggerRefresh ((runRL 1 3600 emptyRateState [("203.0.113.7", 0)]).1)
        "203.0.113.7" 100 "").1.status = 429 ∧
    (TriggerRefresh ((runRL 1 3600 emptyRateState [("203.0.113.7", 0)]).1)
        "203.0.113.7" 100 "").1.retryAfter = none ∧
    (TriggerRefresh ((runRL 1 3600 emptyRateState [("203.0.113.7", 0)]).1)
        "203.0.113.7" 100 "").1.body =
      "Refresh is limited to once per hour. Please try again later." := by
  refine ⟨by decide, by decide, by decide⟩

/-- C9 (amended): for a time-ordered history of triggers starting from a
fresh limiter, a new trigger by a caller is accepted (202, queueing the
requested job) exactly when fewer than the limit (one) of that caller's
prior **accepted** trigger times lie strictly inside the hour-long
window ending now — a sliding window keyed by caller identity over
accepted requests; every rejected trigger is answered explicitly with
HTTP 429 and a human-readable try-later message (no `Retry-After`
header is set on this path) and queues nothing. -/
theorem TriggerRefresh_sliding_window (trace : List (String × Time))
    (ip : String) (t : Time) (slug : String)
    (hpw : List.Pairwise (fun p q : String × Time => p.2 ≤ q.2) trace)
    (hle : ∀ p ∈ trace, p.2 ≤ t) :
    ((TriggerRefresh ((runRL 1 3600 emptyRateState trace).1) ip t slug).1.status = 202 ↔
      ((acceptedTimes (runRL 1 3600 emptyRateState trace).2 ip).filter
        (fun x => t - 3600 < x)).length < 1) ∧
    ((TriggerRefresh ((runRL 1 3600 emptyRateState trace).1) ip t slug).1.status = 202 ∨
      (TriggerRefresh ((runRL 1 3600 emptyRateState trace).1) ip t slug).1.status = 429) ∧
    ((TriggerRefresh ((runRL 1 3600 emptyRateState trace).1) ip t slug).1.status = 429 →
      (TriggerRefresh ((runRL 1 3600 emptyRateState trace).1) ip t slug).1.body =
        "Refresh is limited to once per hour. Please try again later." ∧
      (TriggerRefresh ((runRL 1 3600 emptyRateState trace).1) ip t slug).1.retryAfter =
        none ∧
      (TriggerRefresh ((runRL 1 3600 emptyRateState trace).1) ip t slug).2.2 = []) ∧
    ((TriggerRefresh ((runRL 1 3600 emptyRateState trace).1) ip t slug).1.status = 202 →
      (TriggerRefresh ((runRL 1 3600 emptyRateState trace).1) ip t slug).2.2 =
        [if slug = "" then QueuedJob.scrapeAll else QueuedJob.scrapeOne slug false]) := by
  have hagree := runRL_empty_agree 1 3600 trace hpw ip t hle
  have hlen : (((runRL 1 3600 emptyRateState trace).1 ip).filter
      (fun x => t - 3600 < x)).length =
      ((acceptedTimes (runRL 1 3600 emptyRateState trace).2 ip).filter
        (fun x => t - 3600 < x)).length := by
    have := congrArg List.length hagree
    simpa [windowFilter] using this
  by_cases hdec : 1 ≤ (((runRL 1 3600 emptyRateState trace).1 ip).filter
      (fun x => t - 3600 < x)).length
  · have hresp : TriggerRefresh ((runRL 1 3600 emptyRateState trace).1) ip t slug =
        (TooManyRequests "Refresh is limited to once per hour. Please try again later.",
          (Allow 1 3600 ((runRL 1 3600 emptyRateState trace).1) ip t).2, []) := by
      simp [TriggerRefresh, Allow, hdec]
    rw [hresp]
    refine ⟨?_, ?_, ?_, ?_⟩
    · constructor
      · intro h
        simp [TooManyRequests] at h
      · intro hc
        exfalso
        rw [← hlen] at hc
        omega
    · exact Or.inr rfl
    · intro _
      refine ⟨rfl, rfl, rfl⟩
    · intro h
      simp [TooManyRequests] at h
  · have hresp : TriggerRefresh ((runRL 1 3600 emptyRateState trace).1) ip t slug =
        ({ status := 202, retryAfter := none,
            body := if slug = "" then "Refresh job queued for all sources"
              else "Refresh job queued for " ++ slug },
          (Allow 1 3600 ((runRL 1 3600 emptyRateState trace).1) ip t).2,
          [if slug = "" then QueuedJob.scrapeAll
            else QueuedJob.scrapeOne slug false]) := by
      by_cases hslug : slug = "" <;> simp [TriggerRefresh, Allow, hdec, hslug]
    rw [hresp]
    refine ⟨?_, ?_, ?_, ?_⟩
    · constructor
      · intro _
        rw [← hlen]
        omega
      · intro _
        rfl
    · exact Or.inl rfl
    · intro h
      simp at h
    · intro _
      rfl

/-- Witness for `TriggerRefresh_sliding_window`: after an accepted
trigger at time 0, the same caller's trigger at time 100 falls inside
the window and is rejected with the try-later 429. -/
theorem TriggerRefresh_sliding_window_witness :
    (List.Pairwise (fun p q : String × Time => p.2 ≤ q.2) [("203.0.113.7", (0 : Time))] ∧
      ∀ p ∈ [("203.0.113.7", (0 : Time))], p.2 ≤ (100 : Time)) ∧
    (((TriggerRefresh ((runRL 1 3600 emptyRateState [("203.0.113.7", 0)]).1)
        "203.0.113.7" 100 "bizbuysell").1.status = 202 ↔
      ((acceptedTimes (runRL 1 3600 emptyRateState [("203.0.113.7", 0)]).2
          "203.0.113.7").filter (fun x => (100 : Time) - 3600 < x)).length < 1) ∧
    ((TriggerRefresh ((runRL 1 3600 emptyRateState [("203.0.113.7", 0)]).1)
        "203.0.113.7" 100 "bizbuysell").1.status = 202 ∨
      (TriggerRefresh ((runRL 1 3600 emptyRateState [("203.0.113.7", 0)]).1)
        "203.0.113.7" 100 "bizbuysell").1.status = 429) ∧
    ((TriggerRefresh ((runRL 1 3600 emptyRateState [("203.0.113.7", 0)]).1)
        "203.0.113.7" 100 "bizbuysell").1.status = 429 →
      (TriggerRefresh ((runRL 1 3600 emptyRateState [("203.0.113.7", 0)]).1)
        "203.0.113.7" 100 "bizbuysell").1.body =
        "Refresh is limited to once per hour. Please try again later." ∧
      (TriggerRefresh ((runRL 1 3600 emptyRateState [("203.0.113.7", 0)]).1)
        "203.0.113.7" 100 "bizbuysell").1.retryAfter = none ∧
      (TriggerRefresh ((runRL 1 3600 emptyRateState [("203.0.113.7", 0)]).1)
        "203.0.113.7" 100 "bizbuysell").2.2 = []) ∧
    ((TriggerRefresh ((runRL 1 3600 emptyRateState [("203.0.113.7", 0)]).1)
        "203.0.113.7" 100 "bizbuysell").1.status = 202 →
      (TriggerRefresh ((runRL 1 3600 emptyRateState [("203.0.113.7", 0)]).1)
        "203.0.113.7" 100 "bizbuysell").2.2 =
        [if ("bizbuysell" : String) = "" then QueuedJob.scrapeAll
          else QueuedJob.scrapeOne "bizbuysell" false])) :=
  ⟨⟨by decide, by decide⟩,
    TriggerRefresh_sliding_window [("203.0.113.7", 0)] "203.0.113.7" 100 "bizbuysell"
      (by decide) (by decide)⟩

/-! ### Scheduled-job surface (`ScrapeJobWorker.Work`, scheduler.go
lines 260-301, and `Engine.RunSource` options, engine lines 80-84) -/

/-- `domain.ScrapeOptions`; the rate limit is in milliseconds. -/
structure ScrapeOptions where
  fullScrape : Bool
  maxListings : Nat
  rateLimitMs : Nat
  deriving DecidableEq

/-- `jobs.ScrapeJobArgs`: the queued job's arguments. -/
structure ScrapeJobArgs where
  sourceSlug : String
  maxListings : Nat
  fullScrape : Bool
  deriving DecidableEq

/-- The `ScrapeOptions` literal `Engine.RunSource` always constructs
(engine, lines 80-84): `FullScrape: true`, the caller's limit, and a
fixed two-second rate limit. -/
def runSourceOptions (limit : Nat) : ScrapeOptions :=
  { fullScrape := true, maxListings := limit, rateLimitMs := 2000 }

/-- The collaborators `RunSource` consults, as functions: which slugs
resolve to a source, which have a registered scraper, each scraper's
channel output as a function of the options it is invoked with, the
prior store, and the source-id lookup. -/
structure EngineEnv where
  sourceExists : String → Bool
  registered : String → Bool
  scrape : String → ScrapeOptions → List ChanEvent
  store : List Listing
  srcIdOf : String → UUID

/-- `Engine.RunSource` (engine, lines 55-139) end to end: resolve the
source and scraper (failing before any job record is created), invoke
the scraper with the hardcoded options, drain, and finalize the job. -/
def RunSourceFull (env : EngineEnv) (now : Time) (fresh : Nat → UUID)
    (jobId : UUID) (slug : String) (limit : Nat) :
    Except String (ScrapeJob × RunState) :=
  if env.sourceExists slug = false then
    Except.error ("source not found: " ++ slug)
  else if env.registered slug = false then
    Except.error ("no scraper registered for: " ++ slug)
  else
    let events := env.scrape slug (runSourceOptions limit)
    let st := drainLoop now fresh (env.srcIdOf slug) { store := env.store } events
    let job : ScrapeJob :=
      { id := jobId, sourceId := env.srcIdOf slug, status := ScrapeJobStatusRunning }
    Except.ok (finalizeJob job st, st)

/-- `ScrapeJobWorker.Work` (scheduler.go lines 260-301) as far as the
scrape itself is concerned: it invokes
`engine.RunSource(ctx, args.SourceSlug, args.MaxListings)` — the
`FullScrape` argument is never passed on. -/
def WorkerWork (env : EngineEnv) (now : Time) (fresh : Nat → UUID)
    (jobId : UUID) (args : ScrapeJobArgs) : Except String (ScrapeJob × RunState) :=
  RunSourceFull env now fresh jobId args.sourceSlug args.maxListings

/-- C10: the scheduled job's full-vs-incremental flag has no effect:
two argument records agreeing on slug and cap but differing arbitrarily
in `FullScrape` produce identical scrape behaviour and persisted state,
because the worker never passes the flag on and `RunSource` always
invokes the scraper with `FullScrape = true` and a fixed two-second
rate limit. -/
theorem WorkerWork_fullScrape_noninterference (env : EngineEnv) (now : Time)
    (fresh : Nat → UUID) (jobId : UUID) (a b : ScrapeJobArgs)
    (hslug : a.sourceSlug = b.sourceSlug) (hmax : a.maxListings = b.maxListings) :
    WorkerWork env now fresh jobId a = WorkerWork env now fresh jobId b ∧
    (runSourceOptions a.maxListings).fullScrape = true ∧
    (runSourceOptions a.maxListings).rateLimitMs = 2000 := by
  refine ⟨?_, rfl, rfl⟩
  unfold WorkerWork
  rw [hslug, hmax]

/-- A concrete one-scraper environment for the witness below. -/
def demoEnv : EngineEnv :=
  { sourceExists := fun _ => true
    registered := fun s => s == "bizbuysell"
    scrape := fun _ _ => [ChanEvent.item (mkCand 7 "1" "Shop A" none)]
    store := []
    srcIdOf := fun _ => 5 }

/-- Concrete job arguments differing only in `FullScrape`. -/
def argsFull : ScrapeJobArgs :=
  { sourceSlug := "bizbuysell", maxListings := 5, fullScrape := true }

def argsIncr : ScrapeJobArgs :=
  { sourceSlug := "bizbuysell", maxListings := 5, fullScrape := false }

/-- Witness for `WorkerWork_fullScrape_noninterference`: two concrete
job argument records that differ only in `FullScrape`. -/
theorem WorkerWork_fullScrape_noninterference_witness :
    (argsFull.sourceSlug = argsIncr.sourceSlug ∧
      argsFull.maxListings = argsIncr.maxListings) ∧
    (WorkerWork demoEnv 100 (fun n => 1000 + n) 9 argsFull =
        WorkerWork demoEnv 100 (fun n => 1000 + n) 9 argsIncr ∧
      (runSourceOptions argsFull.maxListings).fullScrape = true ∧
      (runSourceOptions argsFull.maxListings).rateLimitMs = 2000) :=
  ⟨⟨rfl, rfl⟩,
    WorkerWork_fullScrape_noninterference demoEnv 100 (fun n => 1000 + n) 9
      argsFull argsIncr rfl rfl⟩

end Trough
